import Mathlib

/-!
Shallow embedding of the DRIMS relief-package workflow
(`app/features/packages_aidmgmt.py`) and of the optimistic-locking
session hooks (`app/core/optimistic_locking.py`).

Quantities (`Numeric(12,2)` columns, parsed with `float(...)` in the
route code) are modelled as exact rationals `ℚ`; identifiers are `Int`;
single-character status codes are `Char`.  A form field that may be the
empty string is modelled as an `Option` (`none` = empty string).
Database state is a record of row lists; `db.session.rollback()` is
modelled by returning the caller's original state unchanged, and
`db.session.commit()` by returning the updated state.
-/

namespace Drims

/-- Row of `reliefrqst` (the fields `create_package` reads). -/
structure RqstRow where
  reliefrqst_id : Int
  status_code : Int
  deriving Repr, DecidableEq

/-- Row of `reliefrqst_item`: primary key `(reliefrqst_id, item_id)`,
quantities `request_qty` / `issue_qty`, plus the `version_nbr` column
used by the optimistic-locking hooks. -/
structure RqstItemRow where
  reliefrqst_id : Int
  item_id : Int
  request_qty : ℚ
  issue_qty : ℚ
  version_nbr : Int
  deriving Repr, DecidableEq

/-- Row of `inventory` (the fields the workflow reads). -/
structure InventoryRow where
  inventory_id : Int
  warehouse_id : Int
  item_id : Int
  usable_qty : ℚ
  reserved_qty : ℚ
  status_code : Char
  version_nbr : Int
  deriving Repr, DecidableEq

/-- Row of `reliefpkg` (the fields the workflow touches).
`dispatch_dtime` is `none` until `dispatch_package` stamps it. -/
structure PkgRow where
  reliefpkg_id : Int
  reliefrqst_id : Int
  to_inventory_id : Int
  status_code : Char
  dispatch_dtime : Option Int
  deriving Repr, DecidableEq

/-- Row of `reliefpkg_item`. -/
structure PkgItemRow where
  reliefpkg_id : Int
  fr_inventory_id : Int
  item_id : Int
  item_qty : ℚ
  deriving Repr, DecidableEq

/-- The database state visible to the package workflow. -/
structure DB where
  requests : List RqstRow
  rqstItems : List RqstItemRow
  inventories : List InventoryRow
  packages : List PkgRow
  pkgItems : List PkgItemRow
  deriving Repr, DecidableEq

/-- The errors the package routes flash; each corresponds to one
`flash(..., 'danger')` + rollback site in `packages_aidmgmt.py`. -/
inductive PkgError where
  | NotFound                  -- get_or_404
  | InvalidState              -- status not in [2,3] / package not pending
  | NoActiveInventory         -- no active inventory at the warehouse
  | EmptyPackage              -- "must contain at least one item with positive quantity"
  | InvalidQuantity           -- "Quantity must be positive"
  | ItemNotInRequest          -- "Item ... not in original request"
  | QuantityExceedsRemaining  -- "Quantity ... exceeds remaining amount"
  | ItemNotStocked            -- "Item ... not available in selected warehouse"
  | InsufficientStock         -- "Insufficient stock"
  | StaleVersionConflict      -- OptimisticLockError surfaced from commit
  deriving Repr, DecidableEq

/-- Result of a workflow call. -/
inductive CPResult where
  | success (pkgId : Int)
  | failure (e : PkgError)
  deriving Repr, DecidableEq

/-- `rqst_item.issue_qty += qty` on the unique session object returned by
`ReliefRqstItem.query.filter_by(reliefrqst_id=rid, item_id=itemId)`:
bump the first row with that key (the primary key makes it unique). -/
def bumpIssue (rid itemId : Int) (qty : ℚ) : List RqstItemRow → List RqstItemRow
  | [] => []
  | ri :: rest =>
    if ri.reliefrqst_id = rid ∧ ri.item_id = itemId then
      { ri with issue_qty := ri.issue_qty + qty } :: rest
    else
      ri :: bumpIssue rid itemId qty rest

/-- The `for rqst_item_id_str, qty_str in zip(item_rqst_ids, item_qtys)`
loop body of `create_package`.  A pair with an empty component is
skipped (`if rqst_item_id_str and qty_str`).  Later iterations see
`issue_qty` updates made by earlier ones (the session identity map),
hence the threaded `items` list.  `dirty` collects the item ids of the
request items mutated so far; `acc` the `ReliefPkgItem` rows added. -/
def processItems (rid wid pkgId : Int) (invs : List InventoryRow) :
    List (Option Int × Option ℚ) → List RqstItemRow → List Int → List PkgItemRow →
    Except PkgError (List RqstItemRow × List Int × List PkgItemRow)
  | [], items, dirty, acc => .ok (items, dirty, acc)
  | (idOpt, qtyOpt) :: rest, items, dirty, acc =>
    match idOpt, qtyOpt with
    | some itemId, some qty =>
      if qty ≤ 0 then .error .InvalidQuantity
      else
        match items.find? (fun ri => ri.reliefrqst_id = rid ∧ ri.item_id = itemId) with
        | none => .error .ItemNotInRequest
        | some ri =>
          if ri.request_qty - ri.issue_qty < qty then .error .QuantityExceedsRemaining
          else
            match invs.find? (fun inv =>
                inv.warehouse_id = wid ∧ inv.item_id = itemId ∧ inv.status_code = 'A') with
            | none => .error .ItemNotStocked
            | some srcInv =>
              if srcInv.usable_qty < qty then .error .InsufficientStock
              else
                processItems rid wid pkgId invs rest
                  (bumpIssue rid itemId qty items)
                  (itemId :: dirty)
                  (acc ++ [⟨pkgId, srcInv.inventory_id, itemId, qty⟩])
    | _, _ => processItems rid wid pkgId invs rest items dirty acc

/-- The set of row changes a successful `create_package` session holds at
commit time: the dirty `reliefrqst_item` rows (with their final field
values), the new `reliefpkg` row and the new `reliefpkg_item` rows. -/
structure Writes where
  updatedRqstItems : List RqstItemRow
  newPackages : List PkgRow
  newPkgItems : List PkgItemRow
  deriving Repr, DecidableEq

/-- The flush's UPDATE statements are keyed on the primary key alone
(`WHERE reliefrqst_id = :rid AND item_id = :iid`; the models declare no
`version_id_col`, so no version predicate is added): each dirty row's
stored values are overwritten with the session's values.  INSERTs append
the new rows. -/
def applyWrites (db : DB) (w : Writes) : DB :=
  { db with
    rqstItems := db.rqstItems.map (fun ri =>
      match w.updatedRqstItems.find? (fun u =>
          u.reliefrqst_id = ri.reliefrqst_id ∧ u.item_id = ri.item_id) with
      | some u => u
      | none => ri),
    packages := db.packages ++ w.newPackages,
    pkgItems := db.pkgItems ++ w.newPkgItems }

/-- The guarded commit of a `create_package` session, as realised by the
hooks of `optimistic_locking.py`:
* `enforce_optimistic_lock` (before flush) sets each dirty row's
  in-memory `version_nbr` to `original + 1` and remembers the original;
* the flush UPDATE is unconditional on version (see `applyWrites`);
* `verify_optimistic_lock` (after flush) compares each stamped object's
  in-memory `version_nbr` with `original + 1` and raises
  `OptimisticLockError(class, pk)` on mismatch, rolling the session
  back. -/
def guardedApplyWrites (db : DB) (w : Writes) :
    Except (String × Int × Int) DB :=
  let stamped := w.updatedRqstItems.map (fun u =>
    ({ u with version_nbr := u.version_nbr + 1 }, u.version_nbr))
  match stamped.find? (fun su => decide (su.1.version_nbr ≠ su.2 + 1)) with
  | some su => .error ("ReliefRqstItem", su.1.reliefrqst_id, su.1.item_id)
  | none => .ok (applyWrites db ⟨stamped.map (·.1), w.newPackages, w.newPkgItems⟩)

/-- The validation-and-mutation phase of `create_package` (everything the
route does against its session before `db.session.commit()`), run from a
snapshot `db`.  `pkgId` stands for the `reliefpkg_id` the database
assigns at flush; `ids`/`qtys` are the parallel form lists
`rqst_item_id[]` / `item_qty[]`. -/
def cpCompute (db : DB) (rid wid pkgId : Int)
    (ids : List (Option Int)) (qtys : List (Option ℚ)) :
    Except PkgError Writes :=
  match db.requests.find? (fun rq => rq.reliefrqst_id = rid) with
  | none => .error .NotFound
  | some rq =>
    if rq.status_code = 2 ∨ rq.status_code = 3 then
      match db.inventories.find? (fun inv =>
          inv.warehouse_id = wid ∧ inv.status_code = 'A') with
      | none => .error .NoActiveInventory
      | some destInv =>
        match processItems rid wid pkgId db.inventories (ids.zip qtys)
            db.rqstItems [] [] with
        | .error e => .error e
        | .ok (items, dirty, newItems) =>
          if ids.isEmpty ∨ (qtys.filterMap id).all (fun q => decide (q ≤ 0)) then
            .error .EmptyPackage
          else
            .ok ⟨items.filter (fun ri =>
                  decide (ri.reliefrqst_id = rid) && dirty.contains ri.item_id),
                [⟨pkgId, rid, destInv.inventory_id, 'P', none⟩],
                newItems⟩
    else .error .InvalidState

/-- `create_package` (POST branch): validate and mutate the session from
a snapshot of `db`, then commit through the guarded flush.  Any failure
rolls the session back, leaving the stored state exactly `db`. -/
def create_package (db : DB) (rid wid pkgId : Int)
    (ids : List (Option Int)) (qtys : List (Option ℚ)) : CPResult × DB :=
  match cpCompute db rid wid pkgId ids qtys with
  | .error e => (.failure e, db)
  | .ok w =>
    match guardedApplyWrites db w with
    | .ok db' => (.success pkgId, db')
    | .error _ => (.failure .StaleVersionConflict, db)

/-- `dispatch_package`: only a pending package (`status_code = 'P'`) may
be dispatched; on success its status becomes `'D'` and
`dispatch_dtime` is stamped with the current time `now`. -/
def dispatch_package (db : DB) (pid now : Int) : CPResult × DB :=
  match db.packages.find? (fun p => p.reliefpkg_id = pid) with
  | none => (.failure .NotFound, db)
  | some pkg =>
    if pkg.status_code ≠ 'P' then (.failure .InvalidState, db)
    else
      (.success pid,
       { db with packages := db.packages.map (fun p =>
           if p.reliefpkg_id = pid then
             { p with status_code := 'D', dispatch_dtime := some now }
           else p) })

/-!
Per-object embedding of the session hooks in
`app/core/optimistic_locking.py`.  An ORM instance is modelled with the
attributes the hooks inspect: whether it has a `version_nbr` attribute,
whether `session.is_modified(obj)` holds, whether the caller explicitly
changed the version field (`state.attrs.version_nbr.history.has_changes()`),
the in-memory `version_nbr` value (`none` models Python `None`), the
`_original_version_nbr` attribute (`none` models "attribute absent"),
and whether the instance state is persistent.
-/

/-- The session-tracked attributes of one ORM instance that the
optimistic-locking hooks read and write. -/
structure VersionedObj where
  hasVersionAttr : Bool
  isModified : Bool
  versionHistoryChanged : Bool
  version_nbr : Option Int
  originalVersionNbr : Option Int
  persistent : Bool
  deriving Repr, DecidableEq

/-- `enforce_optimistic_lock` (the `before_flush` listener), per dirty
object: skip objects without a `version_nbr` attribute, unmodified
objects, and objects whose version field was explicitly changed by the
caller; warn and skip when the current version is `None`; otherwise set
the in-memory version to `original + 1` and record the original in
`_original_version_nbr`.  The returned `Bool` is true when the warning
was logged. -/
def enforce_optimistic_lock (o : VersionedObj) : VersionedObj × Bool :=
  if ¬ o.hasVersionAttr then (o, false)
  else if ¬ o.isModified then (o, false)
  else if o.versionHistoryChanged then (o, false)
  else
    match o.version_nbr with
    | none => (o, true)
    | some v =>
      ({ o with version_nbr := some (v + 1), originalVersionNbr := some v }, false)

/-- Outcome of the `after_flush` listener for one object: either no
error, or `OptimisticLockError(class name, primary key)` raised after
`session.rollback()`. -/
inductive VerifyResult where
  | ok
  | conflict (cls : String) (pk : Int)
  deriving Repr, DecidableEq

/-- `verify_optimistic_lock` (the `after_flush` listener), per identity-map
object: only objects carrying `_original_version_nbr` are examined; the
attribute is deleted, and for a persistent object with a `version_nbr`
attribute the in-memory `version_nbr` is compared with
`original + 1`; a mismatch rolls back and raises
`OptimisticLockError` with the class name and primary key. -/
def verify_optimistic_lock (cls : String) (pk : Int) (o : VersionedObj) :
    VerifyResult × VersionedObj :=
  match o.originalVersionNbr with
  | none => (.ok, o)
  | some orig =>
    let o2 := { o with originalVersionNbr := none }
    if o2.persistent ∧ o2.hasVersionAttr then
      if o2.version_nbr ≠ some (orig + 1) then (.conflict cls pk, o2)
      else (.ok, o2)
    else (.ok, o2)

/-- The database row version written by the flush for one dirty object:
the UPDATE statement is keyed on the primary key only (the models
declare no `version_id_col`), so whatever `version_nbr` the session
holds in memory is written over the stored row unconditionally. -/
def flushUpdateRowVersion (o : VersionedObj) (rowVersion : Int) : Int :=
  match o.version_nbr with
  | some v => v
  | none => rowVersion

/-- One guarded flush of a single dirty object against a stored row whose
current version is `rowVersion` (possibly advanced by a concurrent
writer since the object was read): run the `before_flush` hook, perform
the unconditional UPDATE, then run the `after_flush` hook.  Returns the
verification outcome, the in-memory object, and the stored row's
version after the flush. -/
def guardedFlushCommit (cls : String) (pk : Int) (o : VersionedObj)
    (rowVersion : Int) : VerifyResult × VersionedObj × Int :=
  let o1 := (enforce_optimistic_lock o).1
  let row2 := flushUpdateRowVersion o1 rowVersion
  let (r, o2) := verify_optimistic_lock cls pk o1
  (r, o2, row2)

/-- The spec's concrete scenario: an approved request (`status_code = 2`,
id 1) with one request item (`request_qty = 100`, `issue_qty = 0`) and
one active inventory row at warehouse 1 for the same item
(`usable_qty = 50`). -/
def scenarioDB : DB :=
  { requests := [⟨1, 2⟩],
    rqstItems := [⟨1, 1, 100, 0, 1⟩],
    inventories := [⟨10, 1, 1, 50, 0, 'A', 1⟩],
    packages := [],
    pkgItems := [] }

/-- The state `create_package scenarioDB 1 1 7 [some 1] [some 30]`
commits: `issue_qty` is 30 (version 2), a pending package and one
package item exist, and the inventory row is untouched (`usable_qty`
still 50, `reserved_qty` still 0). -/
def scenarioDBAfter : DB :=
  { requests := [⟨1, 2⟩],
    rqstItems := [⟨1, 1, 100, 30, 2⟩],
    inventories := [⟨10, 1, 1, 50, 0, 'A', 1⟩],
    packages := [⟨7, 1, 10, 'P', none⟩],
    pkgItems := [⟨7, 10, 1, 30⟩] }

end Drims

namespace Drims

/-- C4: for a dirty entity carrying a `version_nbr` attribute, the
before-flush guard (a) defers when the caller explicitly modified the
version field, leaving the entity untouched, (b) skips the entity and
surfaces a warning when the current version is `None`, and (c) otherwise
records the current version as the expected prior version and sets the
in-memory version to that value plus one. -/
theorem c4_enforce_optimistic_lock_cases (o : VersionedObj)
    (hattr : o.hasVersionAttr = true) (hmod : o.isModified = true) :
    (o.versionHistoryChanged = true → enforce_optimistic_lock o = (o, false)) ∧
    (o.versionHistoryChanged = false → o.version_nbr = none →
      enforce_optimistic_lock o = (o, true)) ∧
    (∀ v : Int, o.versionHistoryChanged = false → o.version_nbr = some v →
      enforce_optimistic_lock o =
        ({ o with version_nbr := some (v + 1), originalVersionNbr := some v }, false)) := by
  refine ⟨fun hh => ?_, fun hh hv => ?_, fun v hh hv => ?_⟩
  · simp [enforce_optimistic_lock, hattr, hmod, hh]
  · simp [enforce_optimistic_lock, hattr, hmod, hh, hv]
  · simp [enforce_optimistic_lock, hattr, hmod, hh, hv]

/-- Witness for C4 at a concrete dirty entity with version 1: the guard
stamps version 2 and records expected prior version 1. -/
theorem c4_enforce_optimistic_lock_cases_witness :
    enforce_optimistic_lock ⟨true, true, false, some 1, none, true⟩ =
      (⟨true, true, false, some 2, some 1, true⟩, false) :=
  (c4_enforce_optimistic_lock_cases ⟨true, true, false, some 1, none, true⟩
    rfl rfl).2.2 1 rfl rfl

/-- C9: for any entity stamped by the before-flush hook (dirty, versioned,
version not explicitly modified, version not `None`), the after-flush
verification compares the in-memory `version_nbr` — which the hook itself
just set to `original + 1` — against `original + 1`, so it always
returns `ok` and the `OptimisticLockError` branch is unreachable in a
single-run execution. -/
theorem c9_verify_after_enforce_always_ok (o : VersionedObj)
    (cls : String) (pk : Int) (v : Int)
    (hattr : o.hasVersionAttr = true) (hmod : o.isModified = true)
    (hhist : o.versionHistoryChanged = false) (hv : o.version_nbr = some v) :
    (verify_optimistic_lock cls pk (enforce_optimistic_lock o).1).1 = .ok := by
  simp only [enforce_optimistic_lock, hattr, hmod, hhist, hv]
  by_cases hp : o.persistent = true <;>
    simp [verify_optimistic_lock, hattr, hp]

/-- Witness for C9 at a concrete stamped entity with version 3. -/
theorem c9_verify_after_enforce_always_ok_witness :
    (verify_optimistic_lock "Inventory" 10
      (enforce_optimistic_lock ⟨true, true, false, some 3, none, true⟩).1).1 = .ok :=
  c9_verify_after_enforce_always_ok ⟨true, true, false, some 3, none, true⟩
    "Inventory" 10 3 rfl rfl rfl rfl

/-- C3: the code cannot detect that the stored row was concurrently
advanced.  A guarded flush of an object read at version 1, against a row
a concurrent writer already advanced to version 2, overwrites the row
(the UPDATE is keyed on the primary key only, with no version
predicate) and the after-flush verification still returns `ok`: no
rollback happens and no `StaleVersionConflict` is raised, contradicting
the claimed error condition. -/
theorem c3_stale_writer_commits_without_conflict :
    guardedFlushCommit "Inventory" 10 ⟨true, true, false, some 1, none, true⟩ 2 =
      (.ok, ⟨true, true, false, some 2, none, true⟩, 2) := by decide

end Drims

namespace Drims

/-- C1: in the spec's concrete scenario (`request_qty = 100`,
`issue_qty = 0`, `usable_qty = 50`, line item of quantity 30) the call
succeeds and `issue_qty` becomes 30, but the code performs no bucket
move on the source inventory: `usable_qty` stays 50 (not 20) and
`reserved_qty` stays 0 — `create_package` checks `usable_qty` and never
decrements it, so `usable_before = usable_after + sum(qty)` fails. -/
theorem c1_scenario_usable_not_decremented :
    create_package scenarioDB 1 1 7 [some 1] [some 30] =
      (.success 7, scenarioDBAfter) ∧
    scenarioDBAfter.inventories = [⟨10, 1, 1, 50, 0, 'A', 1⟩] ∧
    scenarioDBAfter.rqstItems = [⟨1, 1, 100, 30, 2⟩] := by
  refine ⟨?_, rfl, rfl⟩
  norm_num [create_package, cpCompute, processItems, bumpIssue, guardedApplyWrites,
    applyWrites, scenarioDB, scenarioDBAfter, List.find?, List.zip, List.zipWith,
    List.filterMap, List.all, List.filter]

/-- C2: two CreatePackage calls computed from the same snapshot (each a
line item of 30 against `usable_qty = 50`, combined 60 > 50) BOTH pass
validation and BOTH commit through the guarded flush — the second,
stale, commit raises no staleness conflict (the UPDATE carries no
version predicate and the after-flush check is tautological) and
silently overwrites the first call's `issue_qty` increment: the final
state records `issue_qty = 30` (a lost update) and `usable_qty` still
50, instead of exactly one call failing. -/
theorem c2_concurrent_double_allocation_both_commit :
    cpCompute scenarioDB 1 1 7 [some 1] [some 30] =
      .ok ⟨[⟨1, 1, 100, 30, 1⟩], [⟨7, 1, 10, 'P', none⟩], [⟨7, 10, 1, 30⟩]⟩ ∧
    cpCompute scenarioDB 1 1 8 [some 1] [some 30] =
      .ok ⟨[⟨1, 1, 100, 30, 1⟩], [⟨8, 1, 10, 'P', none⟩], [⟨8, 10, 1, 30⟩]⟩ ∧
    guardedApplyWrites scenarioDB
        ⟨[⟨1, 1, 100, 30, 1⟩], [⟨7, 1, 10, 'P', none⟩], [⟨7, 10, 1, 30⟩]⟩ =
      .ok scenarioDBAfter ∧
    guardedApplyWrites scenarioDBAfter
        ⟨[⟨1, 1, 100, 30, 1⟩], [⟨8, 1, 10, 'P', none⟩], [⟨8, 10, 1, 30⟩]⟩ =
      .ok { requests := [⟨1, 2⟩],
            rqstItems := [⟨1, 1, 100, 30, 2⟩],
            inventories := [⟨10, 1, 1, 50, 0, 'A', 1⟩],
            packages := [⟨7, 1, 10, 'P', none⟩, ⟨8, 1, 10, 'P', none⟩],
            pkgItems := [⟨7, 10, 1, 30⟩, ⟨8, 10, 1, 30⟩] } := by
  refine ⟨?_, ?_, ?_, ?_⟩ <;>
    norm_num [cpCompute, processItems, bumpIssue, guardedApplyWrites, applyWrites,
      scenarioDB, scenarioDBAfter, List.find?, List.zip, List.zipWith,
      List.filterMap, List.all, List.filter]

end Drims

namespace Drims

/-- After the dispatch UPDATE, looking the package up again finds the
same row with status `'D'` and the dispatch time stamped. -/
theorem find?_map_dispatch (l : List PkgRow) (pid now : Int) (pkg : PkgRow)
    (h : l.find? (fun p => p.reliefpkg_id = pid) = some pkg) :
    (l.map (fun p => if p.reliefpkg_id = pid then
        { p with status_code := 'D', dispatch_dtime := some now } else p)).find?
      (fun p => p.reliefpkg_id = pid) =
      some { pkg with status_code := 'D', dispatch_dtime := some now } := by
  induction l with
  | nil => simp [List.find?] at h
  | cons a l ih =>
    by_cases ha : a.reliefpkg_id = pid
    · rw [List.find?_cons_of_pos _ (by simp [ha])] at h
      injection h with h
      subst h
      rw [List.map_cons, if_pos ha]
      exact List.find?_cons_of_pos _ (by simp [ha])
    · rw [List.find?_cons_of_neg _ (by simp [ha])] at h
      rw [List.map_cons, if_neg ha]
      rw [List.find?_cons_of_neg _ (by simp [ha])]
      exact ih h

/-- C7: `dispatch_package` succeeds exactly from status `'P'` (Pending):
it sets the status to `'D'` and stamps `dispatch_dtime`, changing no
quantity-bearing row (requests, request items, inventories and package
items are untouched); from any other status it fails with InvalidState
and changes nothing, and in particular a second dispatch of the same
package fails with InvalidState and changes nothing. -/
theorem c7_dispatch_package (db : DB) (pid now now2 : Int) (pkg : PkgRow)
    (hfind : db.packages.find? (fun p => p.reliefpkg_id = pid) = some pkg) :
    (pkg.status_code ≠ 'P' → dispatch_package db pid now = (.failure .InvalidState, db)) ∧
    (pkg.status_code = 'P' →
      (dispatch_package db pid now).1 = .success pid ∧
      ((dispatch_package db pid now).2.packages.find? (fun p => p.reliefpkg_id = pid) =
        some { pkg with status_code := 'D', dispatch_dtime := some now }) ∧
      (dispatch_package db pid now).2.requests = db.requests ∧
      (dispatch_package db pid now).2.rqstItems = db.rqstItems ∧
      (dispatch_package db pid now).2.inventories = db.inventories ∧
      (dispatch_package db pid now).2.pkgItems = db.pkgItems ∧
      (dispatch_package (dispatch_package db pid now).2 pid now2).1 =
        .failure .InvalidState ∧
      (dispatch_package (dispatch_package db pid now).2 pid now2).2 =
        (dispatch_package db pid now).2) := by
  constructor
  · intro hs
    simp [dispatch_package, hfind, hs]
  · intro hs
    have hstep : dispatch_package db pid now =
        (.success pid,
         { db with packages := db.packages.map (fun p =>
             if p.reliefpkg_id = pid then
               { p with status_code := 'D', dispatch_dtime := some now }
             else p) }) := by
      simp [dispatch_package, hfind, hs]
    have hfind2 := find?_map_dispatch db.packages pid now pkg hfind
    refine ⟨by rw [hstep], ?_, by rw [hstep], by rw [hstep], by rw [hstep],
      by rw [hstep], ?_, ?_⟩
    · rw [hstep]; exact hfind2
    · rw [hstep]
      simp [dispatch_package, hfind2]
    · rw [hstep]
      simp [dispatch_package, hfind2]

/-- A one-package database in status Pending, for the C7 witness. -/
def pendingPkgDB : DB :=
  { requests := [], rqstItems := [], inventories := [],
    packages := [⟨7, 1, 10, 'P', none⟩], pkgItems := [] }

/-- Witness for C7: dispatching package 7 of `pendingPkgDB` succeeds and
a second dispatch of the same id fails with InvalidState. -/
theorem c7_dispatch_package_witness :
    (dispatch_package pendingPkgDB 7 5).1 = .success 7 ∧
    (dispatch_package (dispatch_package pendingPkgDB 7 5).2 7 6).1 =
      .failure .InvalidState := by
  have h := (c7_dispatch_package pendingPkgDB 7 5 6 ⟨7, 1, 10, 'P', none⟩ rfl).2 rfl
  exact ⟨h.1, h.2.2.2.2.2.2.1⟩

end Drims

namespace Drims

/-- If every fully-present pair in the submitted list items carries a
non-positive quantity, the line-item loop either trips the
"Quantity must be positive" check or runs through without touching
anything. -/
theorem processItems_all_nonpos (rid wid pkgId : Int) (invs : List InventoryRow) :
    ∀ (pairs : List (Option Int × Option ℚ)) (items : List RqstItemRow)
      (dirty : List Int) (acc : List PkgItemRow),
      (∀ i q, (some i, some q) ∈ pairs → q ≤ 0) →
      processItems rid wid pkgId invs pairs items dirty acc = .error .InvalidQuantity ∨
      processItems rid wid pkgId invs pairs items dirty acc = .ok (items, dirty, acc) := by
  intro pairs
  induction pairs with
  | nil => intro items dirty acc _; right; rfl
  | cons hd rest ih =>
    intro items dirty acc h
    obtain ⟨idOpt, qtyOpt⟩ := hd
    match idOpt, qtyOpt with
    | some i, some q =>
      have hq : q ≤ 0 := h i q (List.mem_cons_self _ _)
      left
      simp [processItems, hq]
    | none, _ =>
      have := ih items dirty acc (fun i q hm => h i q (List.mem_cons_of_mem _ hm))
      simpa [processItems] using this
    | some i, none =>
      have := ih items dirty acc (fun i q hm => h i q (List.mem_cons_of_mem _ hm))
      simpa [processItems] using this

/-- C5 (amended): provided the request-status and destination-inventory
gates pass, a call with an empty line-item list fails with EmptyPackage
and persists nothing; a call in which every submitted quantity is ≤ 0
always fails and persists nothing, but the error is InvalidQuantity
(raised inside the loop by the first pair whose id and quantity are
both present) rather than EmptyPackage, EmptyPackage arising when no
such pair exists. -/
theorem c5_empty_or_nonpositive_fails (db : DB) (rid wid pkgId : Int)
    (ids : List (Option Int)) (qtys : List (Option ℚ)) (rq : RqstRow)
    (hrq : db.requests.find? (fun r => r.reliefrqst_id = rid) = some rq)
    (hstatus : rq.status_code = 2 ∨ rq.status_code = 3)
    (hdest : (db.inventories.find? (fun inv =>
        inv.warehouse_id = wid ∧ inv.status_code = 'A')).isSome) :
    (ids = [] →
      create_package db rid wid pkgId ids qtys = (.failure .EmptyPackage, db)) ∧
    ((∀ q ∈ qtys.filterMap id, q ≤ 0) →
      ((create_package db rid wid pkgId ids qtys).1 = .failure .EmptyPackage ∨
       (create_package db rid wid pkgId ids qtys).1 = .failure .InvalidQuantity) ∧
      (create_package db rid wid pkgId ids qtys).2 = db) := by
  obtain ⟨destInv, hdi⟩ := Option.isSome_iff_exists.mp hdest
  simp only [Bool.decide_and] at hdi
  constructor
  · rintro rfl
    rcases hstatus with hsc | hsc <;>
      simp [create_package, cpCompute, hrq, hsc, hdi, processItems, List.zip]
  · intro hall
    have hpairs : ∀ i q, (some i, some q) ∈ ids.zip qtys → q ≤ 0 := by
      intro i q hm
      exact hall q (List.mem_filterMap.mpr ⟨some q, (List.of_mem_zip hm).2, rfl⟩)
    have halltrue : (qtys.filterMap id).all (fun q => decide (q ≤ 0)) = true :=
      List.all_eq_true.mpr fun q hq => decide_eq_true (hall q hq)
    rcases processItems_all_nonpos rid wid pkgId db.inventories (ids.zip qtys)
        db.rqstItems [] [] hpairs with herr | hok
    · refine ⟨Or.inr ?_, ?_⟩ <;>
        · rcases hstatus with hsc | hsc <;>
            simp [create_package, cpCompute, hrq, hsc, hdi, herr]
    · refine ⟨Or.inl ?_, ?_⟩ <;>
        · rcases hstatus with hsc | hsc <;>
            simp [create_package, cpCompute, hrq, hsc, hdi, hok, halltrue]

/-- C5 counterexample to the claim as stated: with one line item whose
quantity is 0 (so every quantity is ≤ 0), the call fails with
InvalidQuantity — the loop's per-item positivity check fires before the
EmptyPackage check, which only runs after the loop — not with
EmptyPackage. -/
theorem c5_counterexample_invalid_quantity_not_empty :
    create_package scenarioDB 1 1 7 [some 1] [some 0] =
      (.failure .InvalidQuantity, scenarioDB) ∧
    PkgError.InvalidQuantity ≠ PkgError.EmptyPackage := by
  constructor
  · norm_num [create_package, cpCompute, processItems, scenarioDB, List.find?,
      List.zip, List.zipWith]
  · decide

/-- Witness for the amended C5 at the concrete scenario with a single
zero-quantity line item. -/
theorem c5_empty_or_nonpositive_fails_witness :
    ((create_package scenarioDB 1 1 7 [some 1] [some 0]).1 = .failure .EmptyPackage ∨
     (create_package scenarioDB 1 1 7 [some 1] [some 0]).1 = .failure .InvalidQuantity) ∧
    (create_package scenarioDB 1 1 7 [some 1] [some 0]).2 = scenarioDB := by
  have h := c5_empty_or_nonpositive_fails scenarioDB 1 1 7 [some 1] [some 0]
    ⟨1, 2⟩ rfl (Or.inl rfl) rfl
  exact h.2 (by norm_num)

end Drims

namespace Drims

/-- The line-item loop is determined, step by step, by the head pair: if
two tails behave identically from every loop state, prepending the same
head keeps them identical. -/
theorem processItems_cons_congr (rid wid pkgId : Int) (invs : List InventoryRow)
    (a : Option Int × Option ℚ) (L1 L2 : List (Option Int × Option ℚ))
    (h : ∀ items dirty acc, processItems rid wid pkgId invs L1 items dirty acc =
        processItems rid wid pkgId invs L2 items dirty acc) :
    ∀ items dirty acc, processItems rid wid pkgId invs (a :: L1) items dirty acc =
        processItems rid wid pkgId invs (a :: L2) items dirty acc := by
  intro items dirty acc
  obtain ⟨idOpt, qtyOpt⟩ := a
  match idOpt, qtyOpt with
  | none, _ => simpa only [processItems] using h items dirty acc
  | some i, none => simpa only [processItems] using h items dirty acc
  | some i, some q =>
    by_cases h1 : q ≤ 0
    · simp only [processItems, if_pos h1]
    · simp only [processItems, if_neg h1]
      cases hf : items.find? (fun ri => ri.reliefrqst_id = rid ∧ ri.item_id = i) with
      | none => rfl
      | some ri =>
        by_cases h2 : ri.request_qty - ri.issue_qty < q
        · simp only [if_pos h2]
        · simp only [if_neg h2]
          cases hg : invs.find? (fun inv =>
              inv.warehouse_id = wid ∧ inv.item_id = i ∧ inv.status_code = 'A') with
          | none => rfl
          | some src =>
            by_cases h3 : src.usable_qty < q
            · simp only [if_pos h3]
            · simp only [if_neg h3]
              exact h _ _ _

/-- A leading run of pairs each having an empty component is skipped by
the loop without touching the loop state. -/
theorem processItems_skip_prefix (rid wid pkgId : Int) (invs : List InventoryRow) :
    ∀ (empties L : List (Option Int × Option ℚ)),
      (∀ p ∈ empties, p.1 = none ∨ p.2 = none) →
      ∀ items dirty acc,
        processItems rid wid pkgId invs (empties ++ L) items dirty acc =
          processItems rid wid pkgId invs L items dirty acc := by
  intro empties
  induction empties with
  | nil => intro L _ items dirty acc; rfl
  | cons a em ih =>
    intro L ha items dirty acc
    have ha1 := ha a (List.mem_cons_self _ _)
    have hrest := fun p hp => ha p (List.mem_cons_of_mem _ hp)
    obtain ⟨io, qo⟩ := a
    rcases ha1 with h | h
    · simp only at h
      subst h
      simpa only [List.cons_append, processItems] using ih L hrest items dirty acc
    · simp only at h
      subst h
      cases io <;>
        simpa only [List.cons_append, processItems] using ih L hrest items dirty acc

/-- A single pair with an empty component anywhere in the list is skipped
by the loop: the run is identical to the run without that pair. -/
theorem processItems_skip_empty (rid wid pkgId : Int) (invs : List InventoryRow)
    (p : Option Int × Option ℚ) (hp : p.1 = none ∨ p.2 = none) :
    ∀ (pre post : List (Option Int × Option ℚ)) items dirty acc,
      processItems rid wid pkgId invs (pre ++ p :: post) items dirty acc =
        processItems rid wid pkgId invs (pre ++ post) items dirty acc := by
  intro pre
  induction pre with
  | nil =>
    intro post items dirty acc
    exact processItems_skip_prefix rid wid pkgId invs [p] post
      (fun q hq => by simpa using (List.mem_singleton.mp hq ▸ hp)) items dirty acc
  | cons a pre ih =>
    intro post items dirty acc
    simpa only [List.cons_append] using
      processItems_cons_congr rid wid pkgId invs a (pre ++ p :: post) (pre ++ post)
        (fun i d c => ih post i d c) items dirty acc

end Drims

namespace Drims

/-- C6: with the request-status and destination-inventory gates passed,
the first line item whose id and quantity are both present is validated
in the source's order — quantity must be > 0 else InvalidQuantity, the
request item must exist under the request else ItemNotInRequest, the
quantity must not exceed `request_qty - issue_qty` else
QuantityExceedsRemaining, an active source inventory for
(warehouse, item) must exist else ItemNotStocked, and its `usable_qty`
must cover the quantity else InsufficientStock — and any line-item
failure anywhere in the call aborts the whole call with a total
rollback: the returned state is exactly the caller's state, including
any request items already processed in the same call. -/
theorem c6_line_item_validation (db : DB) (rid wid pkgId : Int)
    (ids : List (Option Int)) (qtys : List (Option ℚ)) (rq : RqstRow)
    (hrq : db.requests.find? (fun r => r.reliefrqst_id = rid) = some rq)
    (hstatus : rq.status_code = 2 ∨ rq.status_code = 3)
    (hdest : (db.inventories.find? (fun inv =>
        inv.warehouse_id = wid ∧ inv.status_code = 'A')).isSome)
    (empties : List (Option Int × Option ℚ)) (itemId : Int) (qty : ℚ)
    (rest : List (Option Int × Option ℚ))
    (hzip : ids.zip qtys = empties ++ (some itemId, some qty) :: rest)
    (hemp : ∀ p ∈ empties, p.1 = none ∨ p.2 = none) :
    (∀ e, (create_package db rid wid pkgId ids qtys).1 = .failure e →
        (create_package db rid wid pkgId ids qtys).2 = db) ∧
    (qty ≤ 0 →
        (create_package db rid wid pkgId ids qtys).1 = .failure .InvalidQuantity) ∧
    (0 < qty →
      (db.rqstItems.find? (fun ri =>
          ri.reliefrqst_id = rid ∧ ri.item_id = itemId) = none →
        (create_package db rid wid pkgId ids qtys).1 = .failure .ItemNotInRequest) ∧
      (∀ ri, db.rqstItems.find? (fun ri2 =>
          ri2.reliefrqst_id = rid ∧ ri2.item_id = itemId) = some ri →
        (ri.request_qty - ri.issue_qty < qty →
          (create_package db rid wid pkgId ids qtys).1 =
            .failure .QuantityExceedsRemaining) ∧
        (qty ≤ ri.request_qty - ri.issue_qty →
          (db.inventories.find? (fun inv =>
              inv.warehouse_id = wid ∧ inv.item_id = itemId ∧
                inv.status_code = 'A') = none →
            (create_package db rid wid pkgId ids qtys).1 =
              .failure .ItemNotStocked) ∧
          (∀ src, db.inventories.find? (fun inv =>
              inv.warehouse_id = wid ∧ inv.item_id = itemId ∧
                inv.status_code = 'A') = some src →
            src.usable_qty < qty →
            (create_package db rid wid pkgId ids qtys).1 =
              .failure .InsufficientStock)))) := by
  obtain ⟨destInv, hdi⟩ := Option.isSome_iff_exists.mp hdest
  have hloop : ∀ items dirty acc,
      processItems rid wid pkgId db.inventories (ids.zip qtys) items dirty acc =
        processItems rid wid pkgId db.inventories
          ((some itemId, some qty) :: rest) items dirty acc := by
    intro items dirty acc
    rw [hzip]
    exact processItems_skip_prefix rid wid pkgId db.inventories empties _ hemp
      items dirty acc
  have hcp : ∀ e,
      processItems rid wid pkgId db.inventories ((some itemId, some qty) :: rest)
        db.rqstItems [] [] = .error e →
      create_package db rid wid pkgId ids qtys = (.failure e, db) := by
    intro e he
    have he2 := (hloop db.rqstItems [] []).trans he
    unfold create_package cpCompute
    rw [hrq]
    dsimp only
    rw [if_pos hstatus, hdi]
    dsimp only
    rw [he2]
  refine ⟨?_, ?_, ?_⟩
  · intro e he
    unfold create_package at he ⊢
    cases hc : cpCompute db rid wid pkgId ids qtys with
    | error e2 => rfl
    | ok w =>
      rw [hc] at he
      dsimp only at he ⊢
      cases hg : guardedApplyWrites db w with
      | ok db2 =>
        rw [hg] at he
        exact CPResult.noConfusion he
      | error x => rfl
  · intro hqty
    have hstep : processItems rid wid pkgId db.inventories
        ((some itemId, some qty) :: rest) db.rqstItems [] [] =
          .error .InvalidQuantity := by
      simp only [processItems, if_pos hqty]
    rw [hcp _ hstep]
  · intro hpos
    have hq : ¬ qty ≤ 0 := not_le.mpr hpos
    constructor
    · intro hfind
      have hstep : processItems rid wid pkgId db.inventories
          ((some itemId, some qty) :: rest) db.rqstItems [] [] =
            .error .ItemNotInRequest := by
        simp only [processItems, if_neg hq, hfind]
      rw [hcp _ hstep]
    · intro ri hfind
      constructor
      · intro hrem
        have hstep : processItems rid wid pkgId db.inventories
            ((some itemId, some qty) :: rest) db.rqstItems [] [] =
              .error .QuantityExceedsRemaining := by
          simp only [processItems, if_neg hq, hfind, if_pos hrem]
        rw [hcp _ hstep]
      · intro hrem
        have hrem2 : ¬ ri.request_qty - ri.issue_qty < qty := not_lt.mpr hrem
        constructor
        · intro hsrc
          have hstep : processItems rid wid pkgId db.inventories
              ((some itemId, some qty) :: rest) db.rqstItems [] [] =
                .error .ItemNotStocked := by
            simp only [processItems, if_neg hq, hfind, if_neg hrem2, hsrc]
          rw [hcp _ hstep]
        · intro src hsrc hins
          have hstep : processItems rid wid pkgId db.inventories
              ((some itemId, some qty) :: rest) db.rqstItems [] [] =
                .error .InsufficientStock := by
            simp only [processItems, if_neg hq, hfind, if_neg hrem2, hsrc,
              if_pos hins]
          rw [hcp _ hstep]

/-- Witness for C6 at the spec's scenario: requesting 60 against
`usable_qty = 50` fails with InsufficientStock and the state is exactly
the pre-call state. -/
theorem c6_line_item_validation_witness :
    (create_package scenarioDB 1 1 7 [some 1] [some 60]).1 =
      .failure .InsufficientStock ∧
    (create_package scenarioDB 1 1 7 [some 1] [some 60]).2 = scenarioDB := by
  have h := c6_line_item_validation scenarioDB 1 1 7 [some 1] [some 60]
    ⟨1, 2⟩ rfl (Or.inl rfl) rfl [] 1 60 [] rfl (by simp)
  have hfail := (((h.2.2 (by norm_num)).2 ⟨1, 1, 100, 0, 1⟩ rfl).2
    (by norm_num)).2 ⟨10, 1, 1, 50, 0, 'A', 1⟩ rfl (by norm_num)
  exact ⟨hfail, h.1 _ hfail⟩

end Drims

namespace Drims

/-- `issue_qty += qty` keeps `issue_qty ≤ request_qty` when the loop's
remaining-quantity check `qty ≤ request_qty - issue_qty` passed for the
row found under the key (the row the bump mutates). -/
theorem bumpIssue_invariant (rid itemId : Int) (qty : ℚ) :
    ∀ (items : List RqstItemRow) (a : RqstItemRow),
      items.find? (fun ri => ri.reliefrqst_id = rid ∧ ri.item_id = itemId) = some a →
      qty ≤ a.request_qty - a.issue_qty →
      (∀ ri ∈ items, ri.issue_qty ≤ ri.request_qty) →
      ∀ ri ∈ bumpIssue rid itemId qty items, ri.issue_qty ≤ ri.request_qty := by
  intro items
  induction items with
  | nil => intro a ha _ _ ri hri; simp [bumpIssue] at hri
  | cons b rest ih =>
    intro a ha hle hinv ri hri
    by_cases hb : b.reliefrqst_id = rid ∧ b.item_id = itemId
    · rw [List.find?_cons_of_pos _ (by simpa using hb)] at ha
      injection ha with ha
      rw [← ha] at hle
      rw [bumpIssue, if_pos hb] at hri
      rcases List.mem_cons.mp hri with h | h
      · subst h
        dsimp
        linarith
      · exact hinv ri (List.mem_cons_of_mem _ h)
    · rw [List.find?_cons_of_neg _ (by simpa using hb)] at ha
      rw [bumpIssue, if_neg hb] at hri
      rcases List.mem_cons.mp hri with h | h
      · subst h
        exact hinv ri (List.mem_cons_self _ _)
      · exact ih a ha hle (fun r hr => hinv r (List.mem_cons_of_mem _ hr)) ri h

/-- The line-item loop preserves `issue_qty ≤ request_qty` on its
threaded request-item list: each increment happens only after the
remaining-quantity check. -/
theorem processItems_invariant (rid wid pkgId : Int) (invs : List InventoryRow) :
    ∀ (pairs : List (Option Int × Option ℚ)) (items : List RqstItemRow)
      (dirty : List Int) (acc : List PkgItemRow)
      (res : List RqstItemRow × List Int × List PkgItemRow),
      processItems rid wid pkgId invs pairs items dirty acc = .ok res →
      (∀ ri ∈ items, ri.issue_qty ≤ ri.request_qty) →
      ∀ ri ∈ res.1, ri.issue_qty ≤ ri.request_qty := by
  intro pairs
  induction pairs with
  | nil =>
    intro items dirty acc res h hinv
    injection h with h
    subst h
    exact hinv
  | cons hd rest ih =>
    intro items dirty acc res h hinv
    obtain ⟨io, qo⟩ := hd
    match io, qo with
    | none, _ =>
      exact ih items dirty acc res (by simpa only [processItems] using h) hinv
    | some i, none =>
      exact ih items dirty acc res (by simpa only [processItems] using h) hinv
    | some i, some q =>
      simp only [processItems] at h
      by_cases h1 : q ≤ 0
      · rw [if_pos h1] at h; exact absurd h (by simp)
      · rw [if_neg h1] at h
        cases hf : items.find? (fun ri => ri.reliefrqst_id = rid ∧ ri.item_id = i) with
        | none => rw [hf] at h; exact absurd h (by simp)
        | some a =>
          rw [hf] at h
          dsimp only at h
          by_cases h2 : a.request_qty - a.issue_qty < q
          · rw [if_pos h2] at h; exact absurd h (by simp)
          · rw [if_neg h2] at h
            cases hg : invs.find? (fun inv =>
                inv.warehouse_id = wid ∧ inv.item_id = i ∧ inv.status_code = 'A') with
            | none => rw [hg] at h; exact absurd h (by simp)
            | some src =>
              rw [hg] at h
              dsimp only at h
              by_cases h3 : src.usable_qty < q
              · rw [if_pos h3] at h; exact absurd h (by simp)
              · rw [if_neg h3] at h
                exact ih _ _ _ res h
                  (bumpIssue_invariant rid i q items a hf (le_of_not_lt
                    (fun hlt => h2 hlt)) hinv)

/-- Every request-item row stored after a flush is either an untouched
original row or one of the session's dirty rows. -/
theorem applyWrites_rqstItems_mem (db : DB) (w : Writes) (ri : RqstItemRow)
    (h : ri ∈ (applyWrites db w).rqstItems) :
    ri ∈ db.rqstItems ∨ ri ∈ w.updatedRqstItems := by
  dsimp only [applyWrites] at h
  obtain ⟨x, hx, hfx⟩ := List.mem_map.mp h
  cases hu : w.updatedRqstItems.find? (fun u =>
      u.reliefrqst_id = x.reliefrqst_id ∧ u.item_id = x.item_id) with
  | none =>
    rw [hu] at hfx
    exact Or.inl (hfx ▸ hx)
  | some u =>
    rw [hu] at hfx
    exact Or.inr (hfx ▸ List.mem_of_find?_eq_some hu)

/-- From a successful validation phase, the session's dirty request-item
rows are rows of the loop's final list. -/
theorem cpCompute_ok_updated (db : DB) (rid wid pkgId : Int)
    (ids : List (Option Int)) (qtys : List (Option ℚ)) (w : Writes)
    (h : cpCompute db rid wid pkgId ids qtys = .ok w) :
    ∃ res : List RqstItemRow × List Int × List PkgItemRow,
      processItems rid wid pkgId db.inventories (ids.zip qtys)
        db.rqstItems [] [] = .ok res ∧
      ∀ u ∈ w.updatedRqstItems, u ∈ res.1 := by
  unfold cpCompute at h
  split at h
  · exact absurd h (by simp)
  · split at h
    · split at h
      · exact absurd h (by simp)
      · split at h
        · exact absurd h (by simp)
        · split at h
          · exact absurd h (by simp)
          · injection h with h
            subst h
            next items dirty newItems hproc _ =>
              exact ⟨(items, dirty, newItems), hproc,
                fun u hu => (List.mem_filter.mp hu).1⟩
    · exact absurd h (by simp)

/-- C8: the invariant `issue_qty ≤ request_qty` on every request item is
preserved by the workflow operations: `create_package` increments
`issue_qty` only after checking the quantity against
`request_qty - issue_qty`, and `dispatch_package` touches no request
item, so no reachable state pushes `issue_qty` above `request_qty`. -/
theorem c8_issue_le_request_invariant (db : DB) (rid wid pkgId pid now : Int)
    (ids : List (Option Int)) (qtys : List (Option ℚ))
    (hinv : ∀ ri ∈ db.rqstItems, ri.issue_qty ≤ ri.request_qty) :
    (∀ ri ∈ (create_package db rid wid pkgId ids qtys).2.rqstItems,
        ri.issue_qty ≤ ri.request_qty) ∧
    (∀ ri ∈ (dispatch_package db pid now).2.rqstItems,
        ri.issue_qty ≤ ri.request_qty) := by
  constructor
  · unfold create_package
    cases hc : cpCompute db rid wid pkgId ids qtys with
    | error e => exact hinv
    | ok w =>
      obtain ⟨res, hproc, hsub⟩ := cpCompute_ok_updated db rid wid pkgId ids qtys w hc
      have hres := processItems_invariant rid wid pkgId db.inventories
        (ids.zip qtys) db.rqstItems [] [] res hproc hinv
      dsimp only
      cases hg : guardedApplyWrites db w with
      | error x => exact hinv
      | ok db2 =>
        intro ri hri
        dsimp only at hri
        unfold guardedApplyWrites at hg
        dsimp only at hg
        split at hg
        · exact absurd hg (by simp)
        · injection hg with hg
          rw [← hg] at hri
          rcases applyWrites_rqstItems_mem db _ ri hri with h | h
          · exact hinv ri h
          · obtain ⟨su, hsu, hsueq⟩ := List.mem_map.mp h
            obtain ⟨u, hu, hueq⟩ := List.mem_map.mp hsu
            have hq : ri.issue_qty = u.issue_qty ∧ ri.request_qty = u.request_qty := by
              rw [← hsueq, ← hueq]
              exact ⟨rfl, rfl⟩
            rw [hq.1, hq.2]
            exact hres u (hsub u hu)
  · unfold dispatch_package
    cases hf : db.packages.find? (fun p => p.reliefpkg_id = pid) with
    | none => exact hinv
    | some pkg =>
      dsimp only
      by_cases hs : pkg.status_code ≠ 'P'
      · rw [if_pos hs]
        exact hinv
      · rw [if_neg hs]
        exact hinv

/-- Witness for C8 at the spec's scenario: the invariant holds before the
call (0 ≤ 100) and after the successful allocation of 30. -/
theorem c8_issue_le_request_invariant_witness :
    (∀ ri ∈ scenarioDB.rqstItems, ri.issue_qty ≤ ri.request_qty) ∧
    (∀ ri ∈ (create_package scenarioDB 1 1 7 [some 1] [some 30]).2.rqstItems,
        ri.issue_qty ≤ ri.request_qty) := by
  have hpre : ∀ ri ∈ scenarioDB.rqstItems, ri.issue_qty ≤ ri.request_qty := by
    intro ri hri
    simp only [scenarioDB, List.mem_singleton] at hri
    subst hri
    norm_num
  exact ⟨hpre,
    (c8_issue_le_request_invariant scenarioDB 1 1 7 9 9 [some 1] [some 30] hpre).1⟩

end Drims

namespace Drims

/-- C10: a submitted pair whose request-item id or quantity field is
empty is silently skipped by `create_package`: the loop treats the
submission exactly as if the pair were absent (no validation, no error,
no package item from it), and if the call without the pair succeeds,
the call with the pair succeeds with the same result and state. -/
theorem c10_empty_pair_skipped (db : DB) (rid wid pkgId : Int)
    (ids1 ids2 : List (Option Int)) (qtys1 qtys2 : List (Option ℚ))
    (idO : Option Int) (qO : Option ℚ)
    (hlen : ids1.length = qtys1.length)
    (hempty : idO = none ∨ qO = none) :
    (∀ items dirty acc,
      processItems rid wid pkgId db.inventories
          ((ids1 ++ idO :: ids2).zip (qtys1 ++ qO :: qtys2)) items dirty acc =
        processItems rid wid pkgId db.inventories
          ((ids1 ++ ids2).zip (qtys1 ++ qtys2)) items dirty acc) ∧
    (∀ pid db2,
      create_package db rid wid pkgId (ids1 ++ ids2) (qtys1 ++ qtys2) =
        (.success pid, db2) →
      create_package db rid wid pkgId (ids1 ++ idO :: ids2) (qtys1 ++ qO :: qtys2) =
        (.success pid, db2)) := by
  have hz1 : (ids1 ++ idO :: ids2).zip (qtys1 ++ qO :: qtys2) =
      ids1.zip qtys1 ++ (idO, qO) :: ids2.zip qtys2 := by
    rw [List.zip_append hlen, List.zip_cons_cons]
  have hz2 : (ids1 ++ ids2).zip (qtys1 ++ qtys2) =
      ids1.zip qtys1 ++ ids2.zip qtys2 := List.zip_append hlen
  have hskip := processItems_skip_empty rid wid pkgId db.inventories (idO, qO)
    (by simpa using hempty) (ids1.zip qtys1) (ids2.zip qtys2)
  have hloopeq : ∀ items dirty acc,
      processItems rid wid pkgId db.inventories
          ((ids1 ++ idO :: ids2).zip (qtys1 ++ qO :: qtys2)) items dirty acc =
        processItems rid wid pkgId db.inventories
          ((ids1 ++ ids2).zip (qtys1 ++ qtys2)) items dirty acc := by
    intro items dirty acc
    rw [hz1, hz2]
    exact hskip items dirty acc
  refine ⟨hloopeq, ?_⟩
  intro pid db2 h
  unfold create_package at h ⊢
  cases hc : cpCompute db rid wid pkgId (ids1 ++ ids2) (qtys1 ++ qtys2) with
  | error e =>
    rw [hc] at h
    exact absurd h (by simp)
  | ok w =>
    rw [hc] at h
    dsimp only at h
    have hfull : cpCompute db rid wid pkgId (ids1 ++ idO :: ids2)
        (qtys1 ++ qO :: qtys2) = .ok w := by
      unfold cpCompute at hc ⊢
      cases hr : db.requests.find? (fun r => r.reliefrqst_id = rid) with
      | none => rw [hr] at hc; exact absurd hc (by simp)
      | some rq =>
        rw [hr] at hc
        dsimp only at hc ⊢
        by_cases hs : rq.status_code = 2 ∨ rq.status_code = 3
        · rw [if_pos hs] at hc ⊢
          cases hd : db.inventories.find? (fun inv =>
              inv.warehouse_id = wid ∧ inv.status_code = 'A') with
          | none => rw [hd] at hc; exact absurd hc (by simp)
          | some destInv =>
            rw [hd] at hc
            dsimp only at hc ⊢
            rw [hloopeq db.rqstItems [] []]
            cases hp : processItems rid wid pkgId db.inventories
                ((ids1 ++ ids2).zip (qtys1 ++ qtys2)) db.rqstItems [] [] with
            | error e2 => rw [hp] at hc; exact absurd hc (by simp)
            | ok triple =>
              obtain ⟨items, dirty, newItems⟩ := triple
              rw [hp] at hc
              dsimp only at hc ⊢
              by_cases hck : (ids1 ++ ids2).isEmpty = true ∨
                  ((qtys1 ++ qtys2).filterMap id).all (fun q => decide (q ≤ 0)) = true
              · rw [if_pos hck] at hc; exact absurd hc (by simp)
              · rw [if_neg hck] at hc
                push_neg at hck
                have hckf : ¬((ids1 ++ idO :: ids2).isEmpty = true ∨
                    ((qtys1 ++ qO :: qtys2).filterMap id).all
                      (fun q => decide (q ≤ 0)) = true) := by
                  rintro (habs | habs)
                  · simp at habs
                  · apply hck.2
                    rw [List.all_eq_true] at habs ⊢
                    intro q hq
                    apply habs
                    rw [List.filterMap_append] at hq ⊢
                    rcases List.mem_append.mp hq with hm | hm
                    · exact List.mem_append.mpr (Or.inl hm)
                    · refine List.mem_append.mpr (Or.inr ?_)
                      cases qO with
                      | none => simpa [List.filterMap_cons] using hm
                      | some v =>
                        rw [List.filterMap_cons]
                        exact List.mem_cons_of_mem _ hm
                rw [if_neg hckf]
                exact hc
        · rw [if_neg hs] at hc
          exact absurd hc (by simp)
    rw [hfull]
    dsimp only
    exact h

/-- Witness for C10: a pair with an empty id field and quantity 99 is
skipped, and the call succeeds exactly as the call without it. -/
theorem c10_empty_pair_skipped_witness :
    create_package scenarioDB 1 1 7 [none, some 1] [some 99, some 30] =
      (.success 7, scenarioDBAfter) := by
  have hred : create_package scenarioDB 1 1 7 [some 1] [some 30] =
      (.success 7, scenarioDBAfter) := by
    norm_num [create_package, cpCompute, processItems, bumpIssue, guardedApplyWrites,
      applyWrites, scenarioDB, scenarioDBAfter, List.find?, List.zip, List.zipWith,
      List.filterMap, List.all, List.filter]
  have h := (c10_empty_pair_skipped scenarioDB 1 1 7 [] [some 1] [] [some 30]
    none (some 99) rfl (Or.inl rfl)).2 7 scenarioDBAfter (by simpa using hred)
  simpa using h

end Drims
